import Mathlib

/-!
Shallow embedding of the core of the iotex-core repository slice:
  * `db.kvStoreWithBuffer` and `db.flusher` (buffered key-value store),
  * `blockchain.blockchain` (validate/commit of blocks, tip, subscribers),
  * `contractstaking.Indexer` (incremental staking index).
Definitions are translated from the Go source; collaborators whose code is
not part of the slice (the cached batch, the pub-sub manager, the staking
cache) are modelled from the specification, each marked in its doc comment.
-/

namespace IotexCore

/-- Byte strings (`[]byte` in Go) as lists of byte values. -/
abbrev Bytes := List Nat

/-- `bytes.Compare`: lexicographic comparison, a proper prefix is smaller. -/
def bytesCompare : Bytes → Bytes → Ordering
  | [], [] => .eq
  | [], _ :: _ => .lt
  | _ :: _, [] => .gt
  | a :: as, b :: bs =>
    if a < b then .lt
    else if b < a then .gt
    else bytesCompare as bs

/-- Write kinds of a buffer entry (`batch.Put` / `batch.Delete`). -/
inductive WriteType where
  | put
  | del
deriving DecidableEq, Repr

/-- One entry of the write buffer (`batch.WriteInfo`): namespace, key,
value and write kind.  A `del` entry keeps an empty value. -/
structure WriteInfo where
  wtype : WriteType
  ns : String
  key : Bytes
  value : Bytes
deriving DecidableEq, Repr

/-- Errors surfaced by the buffered store.  `batchNotExist` and
`batchAlreadyDeleted` are the sentinels of the batch package
(`batch.ErrNotExist`, `batch.ErrAlreadyDeleted`); `dbNotExist` is
`db.ErrNotExist`; `ioFailure` stands for an underlying storage fault. -/
inductive KVErr where
  | batchNotExist
  | batchAlreadyDeleted
  | dbNotExist
  | ioFailure (code : Nat)
deriving DecidableEq, Repr

/-- The in-memory write buffer: the ordered log of uncommitted entries
(`batch.CachedBatch`'s queue, oldest first). -/
abbrev Buffer := List WriteInfo

/-- Modelled from the spec: `batch.CachedBatch.Get` — later entries for the
same (namespace, key) shadow earlier ones; the latest matching entry yields
its value when it is a put, `batch.ErrAlreadyDeleted` when it is a delete,
and `batch.ErrNotExist` when no entry matches. -/
def bufferGet (buf : Buffer) (ns : String) (key : Bytes) : Except KVErr Bytes :=
  match buf.reverse.find? (fun w => w.ns = ns ∧ w.key = key) with
  | none => .error .batchNotExist
  | some w =>
    match w.wtype with
    | .put => .ok w.value
    | .del => .error .batchAlreadyDeleted

/-- Modelled from the spec: `batch.CachedBatch.Put` appends a put entry to
the buffer log; it never touches the underlying store. -/
def bufferPut (buf : Buffer) (ns : String) (key value : Bytes) : Buffer :=
  buf ++ [⟨.put, ns, key, value⟩]

/-- Modelled from the spec: `batch.CachedBatch.Delete` appends a delete
(tombstone) entry to the buffer log. -/
def bufferDelete (buf : Buffer) (ns : String) (key : Bytes) : Buffer :=
  buf ++ [⟨.del, ns, key, []⟩]

/-- The underlying durable key-value store, as a finite association of
(namespace, key) pairs to values (the external `db.KVStore` collaborator). -/
structure MemStore where
  data : List ((String × Bytes) × Bytes)
deriving DecidableEq, Repr

/-- `db.KVStore.Get` on the model store: the stored value, or
`db.ErrNotExist` when the pair is absent. -/
def MemStore.get (s : MemStore) (ns : String) (key : Bytes) : Except KVErr Bytes :=
  match s.data.find? (fun e => e.1 = (ns, key)) with
  | some e => .ok e.2
  | none => .error .dbNotExist

/-- `kvStoreWithBuffer`: the buffered wrapper pairing the underlying store
with the write buffer. -/
structure KVB where
  store : MemStore
  buffer : Buffer
deriving DecidableEq, Repr

/-- `kvStoreWithBuffer.Get`: read the buffer first; on `batch.ErrNotExist`
fall through to the store; afterwards rewrite `batch.ErrAlreadyDeleted`
into `db.ErrNotExist`. -/
def KVB.get (kvb : KVB) (ns : String) (key : Bytes) : Except KVErr Bytes :=
  let r1 := bufferGet kvb.buffer ns key
  let r2 :=
    match r1 with
    | .error .batchNotExist => kvb.store.get ns key
    | _ => r1
  match r2 with
  | .error .batchAlreadyDeleted => .error .dbNotExist
  | _ => r2

/-- `kvStoreWithBuffer.Put`: append to the buffer, return nil. -/
def KVB.put (kvb : KVB) (ns : String) (key value : Bytes) : KVB × Option KVErr :=
  ({ kvb with buffer := bufferPut kvb.buffer ns key value }, none)

/-- `kvStoreWithBuffer.MustPut`: same buffer append, no error result. -/
def KVB.mustPut (kvb : KVB) (ns : String) (key value : Bytes) : KVB :=
  { kvb with buffer := bufferPut kvb.buffer ns key value }

/-- `kvStoreWithBuffer.Delete`: append a tombstone, return nil. -/
def KVB.delete (kvb : KVB) (ns : String) (key : Bytes) : KVB × Option KVErr :=
  ({ kvb with buffer := bufferDelete kvb.buffer ns key }, none)

/-- `kvStoreWithBuffer.MustDelete`: same tombstone append, no error result. -/
def KVB.mustDelete (kvb : KVB) (ns : String) (key : Bytes) : KVB :=
  { kvb with buffer := bufferDelete kvb.buffer ns key }

/-- Remove the first occurrence of key `k` from the parallel key/value
lists, dropping the same index from both (the Go loop
`fk = append(fk[:i], fk[i+1:]...)`, `fv = append(fv[:i], fv[i+1:]...)`). -/
def removeKey (k : Bytes) : List Bytes → List Bytes → List Bytes × List Bytes
  | [], fv => ([], fv)
  | a :: fk, fv =>
    if a = k then (fk, fv.drop 1)
    else
      (a :: (removeKey k fk (fv.drop 1)).1, fv.take 1 ++ (removeKey k fk (fv.drop 1)).2)

/-- One iteration of the buffer loop in `kvStoreWithBuffer.Filter`:
skip entries of other namespaces or outside the key bounds; a matching put
obsoletes any same-key store hit and appends the entry; a matching delete
removes any same-key store hit. -/
def filterStep (ns : String) (cond : Bytes → Bytes → Bool)
    (checkMin checkMax : Bool) (minKey maxKey : Bytes)
    (acc : List Bytes × List Bytes) (w : WriteInfo) : List Bytes × List Bytes :=
  if w.ns ≠ ns then acc
  else if checkMin ∧ bytesCompare w.key minKey = .lt then acc
  else if checkMax ∧ bytesCompare w.key maxKey = .gt then acc
  else if cond w.key w.value then
    match w.wtype with
    | .put =>
      let r := removeKey w.key acc.1 acc.2
      (r.1 ++ [w.key], r.2 ++ [w.value])
    | .del => removeKey w.key acc.1 acc.2
  else acc

/-- The buffer-merge loop of `kvStoreWithBuffer.Filter`, folded over the
buffer entries in order, starting from the store's range-query result. -/
def filterMerge (ns : String) (cond : Bytes → Bytes → Bool)
    (minKey maxKey : Bytes) (buf : Buffer)
    (fk fv : List Bytes) : List Bytes × List Bytes :=
  buf.foldl (filterStep ns cond (minKey ≠ []) (maxKey ≠ []) minKey maxKey) (fk, fv)

/-- `db.KVStore.Filter` on the model store: the namespace's entries whose
key is within the given bounds and satisfies the condition, in store
order. An empty bound is an open end. -/
def MemStore.filter (s : MemStore) (ns : String) (cond : Bytes → Bytes → Bool)
    (minKey maxKey : Bytes) : List Bytes × List Bytes :=
  let hits := s.data.filter (fun e =>
    e.1.1 = ns
      ∧ ¬(minKey ≠ [] ∧ bytesCompare e.1.2 minKey = .lt)
      ∧ ¬(maxKey ≠ [] ∧ bytesCompare e.1.2 maxKey = .gt)
      ∧ cond e.1.2 e.2)
  (hits.map (fun e => e.1.2), hits.map (fun e => e.2))

/-- `kvStoreWithBuffer.Filter`: the store's range query merged with the
matching buffer entries. -/
def KVB.filter (kvb : KVB) (ns : String) (cond : Bytes → Bytes → Bool)
    (minKey maxKey : Bytes) : List Bytes × List Bytes :=
  let r := kvb.store.filter ns cond minKey maxKey
  filterMerge ns cond minKey maxKey kvb.buffer r.1 r.2

/-- `flusher.Flush`: write the translated buffer to the underlying store as
one batch; only when that write succeeds is the buffer cleared.  The store
is abstract (`write` is the external `WriteBatch` behaviour), the
translation is the flusher's configured `flushTranslate`. -/
def flusherFlush {Store : Type} (write : Store → Buffer → Except KVErr Store)
    (translate : Buffer → Buffer)
    (store : Store) (buffer : Buffer) : (Store × Buffer) × Option KVErr :=
  match write store (translate buffer) with
  | .error e => ((store, buffer), some e)
  | .ok store2 => ((store2, []), none)

/-! ### ChainCore: the `blockchain` struct of package blockchain -/

/-- Reduction modulo 2^64, the wrap-around of Go's `uint64` addition. -/
def U64 (n : Nat) : Nat := n % 2 ^ 64

/-- The header fields of a block the core reads (`block.Header`).  `hash`
is the value of `HashBlock()`. -/
structure Header where
  height : Nat
  hash : Nat
  prevHash : Nat
  timestamp : Nat
  gasUsed : Nat
  baseFee : Option Nat
  blobGasUsed : Nat
  excessBlobGas : Nat
deriving DecidableEq, Repr

/-- A block as seen by validate/commit: its header plus the outcomes of
the cryptographic checks, which are external to this slice
(`VerifySignature`, `VerifyTxRoot`, `PublicKey().Address()`). -/
structure Block where
  header : Header
  sigValid : Bool
  txRootValid : Bool
  producerAddr : Option Nat
deriving DecidableEq, Repr

def Block.height (b : Block) : Nat := b.header.height

def Block.hash (b : Block) : Nat := b.header.hash

def Block.prevHash (b : Block) : Nat := b.header.prevHash

/-- `protocol.TipInfo`: the tip summary handed to context derivation and
to the height/hash checks of `ValidateBlock`. -/
structure TipInfo where
  height : Nat
  hash : Nat
  timestamp : Nat
  gasUsed : Nat
  baseFee : Option Nat
  blobGasUsed : Nat
  excessBlobGas : Nat
deriving DecidableEq, Repr

/-- Errors of the chain core.  `invalidTipHeight` wraps
`ErrInvalidTipHeight`; `nilBlock` and `wrongPrevHash` both have cause
`ErrInvalidBlock`; `daoPutFailed` is a storage failure reported by
`dao.PutBlock`; `headerNotFound` a failed `dao.HeaderByHeight`. -/
inductive ChainErr where
  | paused
  | nilBlock
  | invalidTipHeight (got expected : Nat)
  | wrongPrevHash (got expected : Nat)
  | eip1559Failed
  | badSignature
  | badTxRoot
  | noProducerAddr
  | headerNotFound (height : Nat)
  | daoPutFailed (code : Nat)
  | validatorFailed (code : Nat)
deriving DecidableEq, Repr

/-- Response of the external archive to `PutBlock` (§6: it must signal a
distinguishable already-exists condition). -/
inductive PutBlockRes where
  | ok
  | alreadyExist
  | failed (code : Nat)
deriving DecidableEq, Repr

/-- The external block archive (`blockdao.BlockDAO`): its current height,
its headers by height, and its response to storing each block.  In the
model `Height()` is total (reading a field). -/
structure Dao where
  tipHeight : Nat
  headers : Nat → Option Header
  putSpec : Block → PutBlockRes

/-- The archive state after a successful durable write of `blk`: the tip
height advances to the block's height and its header becomes readable. -/
def Dao.commit (d : Dao) (blk : Block) : Dao :=
  { d with
    tipHeight := blk.height
    headers := fun h => if h = blk.height then some blk.header else d.headers h }

/-- `dao.PutBlock`: on success the archive durably holds the block; on
already-exists or failure it is unchanged. -/
def Dao.putBlock (d : Dao) (blk : Block) : Dao × PutBlockRes :=
  match d.putSpec blk with
  | .ok => (d.commit blk, .ok)
  | r => (d, r)

/-- The `blockchain` struct: archive, genesis parameters, pause flag,
registered subscribers, the log of notifications delivered so far, the
pluggable block validator (`none` = accept) and the external EIP-1559
header check. -/
structure ChainState where
  dao : Dao
  genesisHash : Nat
  genesisTimestamp : Nat
  pause : Bool
  subscribers : List Nat
  notified : List (Nat × Block)
  validator : Option (Block → Option Nat)
  eip1559Check : TipInfo → Header → Bool

/-- `blockchain.tipInfo`: height 0 yields the synthetic genesis tip; any
other height reads the header from the archive. -/
def ChainState.tipInfo (st : ChainState) (tipHeight : Nat) : Except ChainErr TipInfo :=
  if tipHeight = 0 then
    .ok { height := 0, hash := st.genesisHash, timestamp := st.genesisTimestamp,
          gasUsed := 0, baseFee := none, blobGasUsed := 0, excessBlobGas := 0 }
  else
    match st.dao.headers tipHeight with
    | none => .error (.headerNotFound tipHeight)
    | some h =>
      .ok { height := tipHeight, hash := h.hash, timestamp := h.timestamp,
            gasUsed := h.gasUsed, baseFee := h.baseFee,
            blobGasUsed := h.blobGasUsed, excessBlobGas := h.excessBlobGas }

/-- `blockchain.context`: derives the execution context at a height; in
the model the context is the tip info it embeds, and it fails exactly when
`tipInfo` fails. -/
def ChainState.contextAt (st : ChainState) (height : Nat) : Except ChainErr TipInfo :=
  st.tipInfo height

/-- Modelled from the spec: `PubSubManager.SendBlockToSubscribers` invokes
all registered subscribers synchronously, in registration order, passing
them the committed block; the model appends one notification per
subscriber to the log. -/
def sendBlockToSubscribers (st : ChainState) (blk : Block) : ChainState :=
  { st with notified := st.notified ++ st.subscribers.map (fun s => (s, blk)) }

/-- `blockchain.commitBlock`: derive the commit context, write the block
to the archive (already-exists is swallowed as success, a failure is
returned), then emit the block to all subscribers and return nil. -/
def ChainState.commitBlock (st : ChainState) (blk : Block) : ChainState × Option ChainErr :=
  match st.contextAt st.dao.tipHeight with
  | .error e => (st, some e)
  | .ok _ =>
    let r := st.dao.putBlock blk
    match r.2 with
    | .alreadyExist => ({ st with dao := r.1 }, none)
    | .failed c => ({ st with dao := r.1 }, some (.daoPutFailed c))
    | .ok => (sendBlockToSubscribers { st with dao := r.1 } blk, none)

/-- `blockchain.CommitBlock`: fail with the paused error when the chain is
paused, otherwise commit under the write lock. -/
def ChainState.CommitBlock (st : ChainState) (blk : Block) : ChainState × Option ChainErr :=
  if st.pause then (st, some .paused) else st.commitBlock blk

/-- `blockchain.ValidateBlock`, as the error it returns: nil-block check,
tip read, height linkage, previous-hash linkage, EIP-1559 header check
when a base fee is present, signature, transaction root, producer
address, context derivation, then the pluggable validator (absent
validator accepts). -/
def ChainState.validateBlockRes (st : ChainState) (blk? : Option Block) : Option ChainErr :=
  match blk? with
  | none => some .nilBlock
  | some blk =>
    match st.tipInfo st.dao.tipHeight with
    | .error e => some e
    | .ok tip =>
      if blk.height ≠ 0 ∧ blk.height ≠ U64 (tip.height + 1) then
        some (.invalidTipHeight blk.height (U64 (tip.height + 1)))
      else if blk.prevHash ≠ tip.hash then
        some (.wrongPrevHash blk.prevHash tip.hash)
      else if blk.header.baseFee.isSome ∧ ¬ st.eip1559Check tip blk.header then
        some .eip1559Failed
      else if ¬ blk.sigValid then some .badSignature
      else if ¬ blk.txRootValid then some .badTxRoot
      else
        match blk.producerAddr with
        | none => some .noProducerAddr
        | some _ =>
          match st.contextAt st.dao.tipHeight with
          | .error e => some e
          | .ok _ =>
            match st.validator with
            | none => none
            | some v => (v blk).map .validatorFailed

/-- `blockchain.ValidateBlock` with its (unchanged) state: the method only
reads under the shared lock, so the state it leaves is the state it was
given. -/
def ChainState.validateBlock (st : ChainState) (blk? : Option Block) :
    ChainState × Option ChainErr :=
  (st, st.validateBlockRes blk?)

/-! ### IncrementalIndexer: `contractstaking.Indexer` -/

/-- Indexer configuration (`contractstaking.Config`): the watched contract
address and the contract deployment height (the indexer's start height). -/
structure IdxConfig where
  contractAddress : String
  contractDeployHeight : Nat
deriving DecidableEq, Repr

/-- Indexer errors: the ordering error of `PutBlock`, a cache-merge
failure, a store-write failure, an event-handling failure. -/
inductive IdxErr where
  | invalidHeight (got expected : Nat)
  | mergeFailed (code : Nat)
  | writeFailed (code : Nat)
  | handleFailed (code : Nat)
deriving DecidableEq, Repr

/-- A receipt log as the indexer reads it: emitting address plus opaque
payload. -/
structure IdxLog where
  address : String
  payload : Nat
deriving DecidableEq, Repr

/-- A receipt: status and logs. -/
structure IdxReceipt where
  status : Nat
  logs : List IdxLog
deriving DecidableEq, Repr

/-- The block data `PutBlock` consumes: height and receipts. -/
structure IdxBlock where
  height : Nat
  receipts : List IdxReceipt
deriving DecidableEq, Repr

/-- `iotextypes.ReceiptStatus_Success`. -/
def receiptStatusSuccess : Nat := 1

/-- `Indexer.isIgnored`: heights before the contract deployment height are
ignored by the read interface. -/
def idxIsIgnored (cfg : IdxConfig) (height : Nat) : Bool :=
  height < cfg.contractDeployHeight

/-- `Indexer.commit`: merge the delta into the live cache; on failure
reload from the (unchanged) store and return the error; otherwise add the
checkpoint height to the batch and write it; on write failure reload from
the store and return the error; on success keep the merged cache and the
written store.  `loadFromDB` is the reload (modelled from the spec:
`contractStakingCache.LoadFromDB` rebuilds the cache from the store,
total in the model); the cache, delta, batch and store types are
abstract. -/
def idxCommit {Cache Delta Batch Store : Type}
    (merge : Cache → Delta → Nat → Except IdxErr Cache)
    (putHeightKey : Batch → Nat → Batch)
    (writeBatch : Store → Batch → Except IdxErr Store)
    (loadFromDB : Store → Cache)
    (cache : Cache) (store : Store)
    (batch : Batch) (delta : Delta) (height : Nat) :
    (Cache × Store) × Option IdxErr :=
  match merge cache delta height with
  | .error e => ((loadFromDB store, store), some e)
  | .ok cache2 =>
    match writeBatch store (putHeightKey batch height) with
    | .error e => ((loadFromDB store, store), some e)
    | .ok store2 => ((cache2, store2), none)

/-- The inner loop of `Indexer.PutBlock` over one receipt's logs: logs from
other addresses are skipped, matching logs are fed to the event handler,
whose first failure aborts. -/
def handleLogs {Handler : Type}
    (handleEvent : Handler → Nat → IdxLog → Except IdxErr Handler)
    (addr : String) (height : Nat) (h : Handler) :
    List IdxLog → Except IdxErr Handler
  | [] => .ok h
  | l :: ls =>
    if l.address ≠ addr then handleLogs handleEvent addr height h ls
    else
      match handleEvent h height l with
      | .error e => .error e
      | .ok h2 => handleLogs handleEvent addr height h2 ls

/-- The outer loop of `Indexer.PutBlock` over the block's receipts:
non-successful receipts are skipped. -/
def handleReceipts {Handler : Type}
    (handleEvent : Handler → Nat → IdxLog → Except IdxErr Handler)
    (addr : String) (height : Nat) (h : Handler) :
    List IdxReceipt → Except IdxErr Handler
  | [] => .ok h
  | r :: rs =>
    if r.status ≠ receiptStatusSuccess then
      handleReceipts handleEvent addr height h rs
    else
      match handleLogs handleEvent addr height h r.logs with
      | .error e => .error e
      | .ok h2 => handleReceipts handleEvent addr height h2 rs

/-- `Indexer.PutBlock`: compute the expected height (cache height + 1,
floored at the configured deploy height); a lower block height is a silent
no-op, a higher one is the ordering error; at the expected height the
receipts are handled into a batch and delta which are committed.  The
cache, handler, batch, delta and store types and their operations are
abstract (the staking cache and event handler are outside this slice). -/
def idxPutBlock {Cache Delta Batch Store Handler : Type}
    (cfg : IdxConfig)
    (cacheHeight : Cache → Nat)
    (newHandler : Cache → Handler)
    (handleEvent : Handler → Nat → IdxLog → Except IdxErr Handler)
    (handlerResult : Handler → Batch × Delta)
    (merge : Cache → Delta → Nat → Except IdxErr Cache)
    (putHeightKey : Batch → Nat → Batch)
    (writeBatch : Store → Batch → Except IdxErr Store)
    (loadFromDB : Store → Cache)
    (cache : Cache) (store : Store) (blk : IdxBlock) :
    (Cache × Store) × Option IdxErr :=
  let expect0 := U64 (cacheHeight cache + 1)
  let expect := if expect0 < cfg.contractDeployHeight then cfg.contractDeployHeight else expect0
  if blk.height < expect then ((cache, store), none)
  else if blk.height > expect then ((cache, store), some (.invalidHeight blk.height expect))
  else
    match handleReceipts handleEvent cfg.contractAddress blk.height (newHandler cache) blk.receipts with
    | .error e => ((cache, store), some e)
    | .ok h =>
      let r := handlerResult h
      idxCommit merge putHeightKey writeBatch loadFromDB cache store r.1 r.2 blk.height

/-- `Indexer.Buckets`: empty list for ignored heights, else the cache
query. -/
def idxBuckets {Cache Bucket : Type} (cfg : IdxConfig)
    (cacheBuckets : Cache → Nat → Except IdxErr (List Bucket))
    (cache : Cache) (height : Nat) : Except IdxErr (List Bucket) :=
  if idxIsIgnored cfg height then .ok [] else cacheBuckets cache height

/-- `Indexer.Bucket`: `(nil, false, nil)` for ignored heights, else the
cache query. -/
def idxBucket {Cache Bucket : Type} (cfg : IdxConfig)
    (cacheBucket : Cache → Nat → Nat → Except IdxErr (Option Bucket × Bool))
    (cache : Cache) (id height : Nat) : Except IdxErr (Option Bucket × Bool) :=
  if idxIsIgnored cfg height then .ok (none, false) else cacheBucket cache id height

/-- `Indexer.BucketsByIndices`: empty list for ignored heights. -/
def idxBucketsByIndices {Cache Bucket : Type} (cfg : IdxConfig)
    (cacheByIndices : Cache → List Nat → Nat → Except IdxErr (List Bucket))
    (cache : Cache) (indices : List Nat) (height : Nat) : Except IdxErr (List Bucket) :=
  if idxIsIgnored cfg height then .ok [] else cacheByIndices cache indices height

/-- `Indexer.BucketsByCandidate`: empty list for ignored heights. -/
def idxBucketsByCandidate {Cache Bucket : Type} (cfg : IdxConfig)
    (cacheByCandidate : Cache → Nat → Nat → Except IdxErr (List Bucket))
    (cache : Cache) (candidate height : Nat) : Except IdxErr (List Bucket) :=
  if idxIsIgnored cfg height then .ok [] else cacheByCandidate cache candidate height

/-- `Indexer.CandidateVotes`: zero for ignored heights. -/
def idxCandidateVotes {Cache : Type} (cfg : IdxConfig)
    (cacheVotes : Cache → Nat → Nat → Except IdxErr Int)
    (cache : Cache) (candidate height : Nat) : Except IdxErr Int :=
  if idxIsIgnored cfg height then .ok 0 else cacheVotes cache candidate height

/-- `Indexer.TotalBucketCount`: zero for ignored heights. -/
def idxTotalBucketCount {Cache : Type} (cfg : IdxConfig)
    (cacheCount : Cache → Nat → Except IdxErr Nat)
    (cache : Cache) (height : Nat) : Except IdxErr Nat :=
  if idxIsIgnored cfg height then .ok 0 else cacheCount cache height

/-- `Indexer.BucketTypes`: empty list for ignored heights, else the values
of the active-bucket-type map returned by the cache. -/
def idxBucketTypes {Cache BucketType : Type} (cfg : IdxConfig)
    (cacheActiveTypes : Cache → Nat → Except IdxErr (List (Nat × BucketType)))
    (cache : Cache) (height : Nat) : Except IdxErr (List BucketType) :=
  if idxIsIgnored cfg height then .ok []
  else
    match cacheActiveTypes cache height with
    | .error e => .error e
    | .ok btMap => .ok (btMap.map (fun e => e.2))

/-! ### Helper lemmas -/

theorem memStore_get_shape (s : MemStore) (ns : String) (k : Bytes) :
    s.get ns k ≠ .error .batchNotExist ∧ s.get ns k ≠ .error .batchAlreadyDeleted := by
  unfold MemStore.get
  rcases hf : s.data.find? (fun e => e.1 = (ns, k)) with _ | e <;> simp [hf]

theorem removeKey_length (k : Bytes) :
    ∀ fk fv : List Bytes, fk.length = fv.length →
      (removeKey k fk fv).1.length = (removeKey k fk fv).2.length := by
  intro fk
  induction fk with
  | nil =>
    intro fv h
    simpa [removeKey] using h
  | cons a fk ih =>
    intro fv h
    simp only [List.length_cons] at h
    by_cases hak : a = k
    · simp only [removeKey, if_pos hak, List.length_drop]
      omega
    · have hlen : fk.length = (fv.drop 1).length := by
        simp only [List.length_drop]; omega
      have hr := ih (fv.drop 1) hlen
      simp only [removeKey, if_neg hak, List.length_cons, List.length_append,
        List.length_take, List.length_drop] at hr ⊢
      omega

theorem filterStep_length (ns : String) (cond : Bytes → Bytes → Bool)
    (cm cx : Bool) (mk mx : Bytes) (acc : List Bytes × List Bytes) (w : WriteInfo)
    (h : acc.1.length = acc.2.length) :
    (filterStep ns cond cm cx mk mx acc w).1.length
      = (filterStep ns cond cm cx mk mx acc w).2.length := by
  unfold filterStep
  have hrk := removeKey_length w.key acc.1 acc.2 h
  split
  · exact h
  · split
    · exact h
    · split
      · exact h
      · split
        · cases w.wtype <;> simp only [List.length_append, List.length_cons] <;> omega
        · exact h

theorem foldl_filterStep_length (ns : String) (cond : Bytes → Bytes → Bool)
    (cm cx : Bool) (mk mx : Bytes) :
    ∀ (buf : Buffer) (acc : List Bytes × List Bytes),
      acc.1.length = acc.2.length →
        ((buf.foldl (filterStep ns cond cm cx mk mx) acc).1.length
          = (buf.foldl (filterStep ns cond cm cx mk mx) acc).2.length) := by
  intro buf
  induction buf with
  | nil => intro acc h; exact h
  | cons w ws ih =>
    intro acc h
    exact ih _ (filterStep_length ns cond cm cx mk mx acc w h)

/-! ### Claim theorems: buffered store -/

/-- C10: the buffered store's fallible `Put` and `Delete` always return nil:
they only append the entry to the in-memory buffer, never touch the
underlying store, and coincide with `MustPut`/`MustDelete`. -/
theorem kvbPut_delete_never_fail (kvb : KVB) (ns : String) (k v : Bytes) :
    kvb.put ns k v = (kvb.mustPut ns k v, none)
    ∧ (kvb.put ns k v).1.store = kvb.store
    ∧ (kvb.put ns k v).1.buffer = kvb.buffer ++ [⟨.put, ns, k, v⟩]
    ∧ kvb.delete ns k = (kvb.mustDelete ns k, none)
    ∧ (kvb.delete ns k).1.store = kvb.store
    ∧ (kvb.delete ns k).1.buffer = kvb.buffer ++ [⟨.del, ns, k, []⟩] :=
  ⟨rfl, rfl, rfl, rfl, rfl, rfl⟩

/-- C7: `Flush` writes the translated buffer to the store first and clears
the buffer only after that write succeeds: a failing batch write is
returned with the buffer (and store) untouched; a successful one leaves
the buffer empty. -/
theorem flusherFlush_clears_after_write {Store : Type}
    (write : Store → Buffer → Except KVErr Store) (translate : Buffer → Buffer)
    (store : Store) (buffer : Buffer) :
    (∃ e, write store (translate buffer) = .error e
        ∧ flusherFlush write translate store buffer = ((store, buffer), some e))
    ∨ (∃ store2, write store (translate buffer) = .ok store2
        ∧ flusherFlush write translate store buffer = ((store2, []), none)) := by
  cases hw : write store (translate buffer) with
  | error e => exact Or.inl ⟨e, rfl, by simp [flusherFlush, hw]⟩
  | ok store2 => exact Or.inr ⟨store2, rfl, by simp [flusherFlush, hw]⟩

/-- C5: `Get` on the buffered store is read-your-writes: a buffered `Put`
is visible before any flush, a buffered `Delete` yields not-found even if
the store still holds the key, and a key absent from the buffer is read
from the underlying store. -/
theorem kvbGet_read_your_writes (kvb : KVB) (ns : String) (k v : Bytes) :
    ((kvb.put ns k v).1).get ns k = .ok v
    ∧ ((kvb.delete ns k).1).get ns k = .error .dbNotExist
    ∧ (bufferGet kvb.buffer ns k = .error .batchNotExist →
        kvb.get ns k = kvb.store.get ns k) := by
  refine ⟨?_, ?_, ?_⟩
  · simp [KVB.put, KVB.get, bufferPut, bufferGet, List.reverse_append]
  · simp [KVB.delete, KVB.get, bufferDelete, bufferGet, List.reverse_append]
  · intro h
    have hs := memStore_get_shape kvb.store ns k
    unfold KVB.get
    rw [h]
    simp only
    rcases hg : kvb.store.get ns k with e | val
    · cases e <;> simp_all
    · simp

/-- C6: `Filter` merges the store's range query with the buffer: a buffer
delete removes a same-key store hit (the spec's scenario: store `{k1:v1}`,
buffer put `(k2,v2)` and delete `k1`, range `[k1,k2]` yields only
`{k2:v2}`), a buffer put overrides a same-key store hit, and the merge
keeps the key and value lists in index correspondence. -/
theorem kvbFilter_merges_buffer :
    KVB.filter ⟨⟨[(("ns", [1]), [10])]⟩, [⟨.put, "ns", [2], [20]⟩, ⟨.del, "ns", [1], []⟩]⟩
        "ns" (fun _ _ => true) [1] [2] = ([[2]], [[20]])
    ∧ KVB.filter ⟨⟨[(("ns", [1]), [10])]⟩, [⟨.put, "ns", [1], [20]⟩]⟩
        "ns" (fun _ _ => true) [] [] = ([[1]], [[20]])
    ∧ (∀ (ns : String) (cond : Bytes → Bytes → Bool) (minKey maxKey : Bytes)
        (buf : Buffer) (fk fv : List Bytes), fk.length = fv.length →
          (filterMerge ns cond minKey maxKey buf fk fv).1.length
            = (filterMerge ns cond minKey maxKey buf fk fv).2.length) := by
  refine ⟨by decide, by decide, ?_⟩
  intro ns cond minKey maxKey buf fk fv h
  exact foldl_filterStep_length ns cond (minKey ≠ []) (maxKey ≠ []) minKey maxKey buf (fk, fv) h

/-- Witness for C6 at a concrete input: singleton lists stay in index
correspondence through the merge. -/
theorem kvbFilter_merges_buffer_witness :
    (filterMerge "a" (fun _ _ => true) [] [] [⟨.del, "a", [1], []⟩] [[1]] [[9]]).1.length
      = (filterMerge "a" (fun _ _ => true) [] [] [⟨.del, "a", [1], []⟩] [[1]] [[9]]).2.length :=
  kvbFilter_merges_buffer.2.2 "a" (fun _ _ => true) [] [] [⟨.del, "a", [1], []⟩] [[1]] [[9]] rfl

/-- Witness for C5 at a concrete input: a key absent from the buffer is
read from the underlying store. -/
theorem kvbGet_read_your_writes_witness :
    (KVB.get ⟨⟨[(("a", [1]), [9])]⟩, []⟩ "a" [1]) = .ok [9]
    ∧ (KVB.get ⟨⟨[(("a", [1]), [9])]⟩, []⟩ "a" [1])
        = (MemStore.get ⟨[(("a", [1]), [9])]⟩ "a" [1]) :=
  ⟨by rfl, (kvbGet_read_your_writes ⟨⟨[(("a", [1]), [9])]⟩, []⟩ "a" [1] []).2.2 (by rfl)⟩

/-! ### Claim theorems: chain core -/

/-- A concrete chain state at the genesis tip, used by witnesses: archive
empty at height 0, two subscribers, archive accepting every block. -/
def wChain : ChainState :=
  { dao := { tipHeight := 0, headers := fun _ => none, putSpec := fun _ => .ok }
    genesisHash := 7
    genesisTimestamp := 3
    pause := false
    subscribers := [1, 2]
    notified := []
    validator := none
    eip1559Check := fun _ _ => true }

/-- The genesis tip of `wChain`. -/
def wTip : TipInfo :=
  { height := 0, hash := 7, timestamp := 3, gasUsed := 0, baseFee := none,
    blobGasUsed := 0, excessBlobGas := 0 }

/-- A concrete block of height 5 used by witnesses. -/
def wBlock5 : Block :=
  { header := { height := 5, hash := 11, prevHash := 7, timestamp := 4, gasUsed := 0,
                baseFee := none, blobGasUsed := 0, excessBlobGas := 0 }
    sigValid := true
    txRootValid := true
    producerAddr := some 1 }

/-- A concrete chain state whose archive already holds `wBlock5` at its tip
and reports already-exists for any further write. -/
def wChainDup : ChainState :=
  { dao := { tipHeight := 5, headers := fun _ => some wBlock5.header,
             putSpec := fun _ => .alreadyExist }
    genesisHash := 7
    genesisTimestamp := 3
    pause := false
    subscribers := [1, 2]
    notified := []
    validator := none
    eip1559Check := fun _ _ => true }

/-- The tip of `wChainDup`. -/
def wTipDup : TipInfo :=
  { height := 5, hash := 11, timestamp := 4, gasUsed := 0, baseFee := none,
    blobGasUsed := 0, excessBlobGas := 0 }

/-- C8: a non-genesis block whose height is not tip height + 1 is rejected
by `ValidateBlock` with the invalid-tip-height error, and the chain state
is left unchanged. -/
theorem validateBlock_wrong_height (st : ChainState) (blk : Block) (tip : TipInfo)
    (htip : st.tipInfo st.dao.tipHeight = .ok tip)
    (h0 : blk.height ≠ 0) (hne : blk.height ≠ U64 (tip.height + 1)) :
    st.validateBlock (some blk)
      = (st, some (.invalidTipHeight blk.height (U64 (tip.height + 1)))) := by
  unfold ChainState.validateBlock ChainState.validateBlockRes
  rw [htip]
  simp [h0, hne]

/-- Witness for C8: at the genesis tip a block of height 5 (expected 1) is
rejected with the invalid-tip-height error and the state is unchanged. -/
theorem validateBlock_wrong_height_witness :
    wChain.validateBlock (some wBlock5) = (wChain, some (.invalidTipHeight 5 1)) :=
  validateBlock_wrong_height wChain wBlock5 wTip (by rfl) (by decide) (by decide)

/-- C1: committing a block notifies subscribers only after the durable
archive write succeeds and before the call returns: if `dao.PutBlock`
fails, `CommitBlock` returns the error with the whole state (tip included)
unchanged and nobody notified; if it succeeds, the call returns nil with
every registered subscriber notified of the block and the archive advanced
to it. -/
theorem commitBlock_notify_after_durable (st : ChainState) (blk : Block) (t : TipInfo)
    (hp : st.pause = false)
    (hc : st.contextAt st.dao.tipHeight = .ok t) :
    (∀ c, st.dao.putSpec blk = .failed c →
        st.CommitBlock blk = (st, some (.daoPutFailed c)))
    ∧ (st.dao.putSpec blk = .ok →
        (st.CommitBlock blk).2 = none
        ∧ (st.CommitBlock blk).1.notified
            = st.notified ++ st.subscribers.map (fun s => (s, blk))
        ∧ (st.CommitBlock blk).1.dao = st.dao.commit blk) := by
  obtain ⟨dao, gh, gts, pz, subs, ntf, vld, eip⟩ := st
  simp only at hp hc
  subst hp
  constructor
  · intro c hf
    have hf2 : dao.putSpec blk = .failed c := hf
    simp [ChainState.CommitBlock, ChainState.commitBlock, hc, Dao.putBlock, hf2]
  · intro hok
    have hok2 : dao.putSpec blk = .ok := hok
    simp [ChainState.CommitBlock, ChainState.commitBlock, hc, Dao.putBlock, hok2,
      sendBlockToSubscribers]

/-- Witness for C1: at the genesis tip with an accepting archive,
committing the height-5 block returns nil, notifies both subscribers, and
advances the archive to the block. -/
theorem commitBlock_notify_after_durable_witness :
    (wChain.CommitBlock wBlock5).2 = none
    ∧ (wChain.CommitBlock wBlock5).1.notified = [(1, wBlock5), (2, wBlock5)]
    ∧ (wChain.CommitBlock wBlock5).1.dao = wChain.dao.commit wBlock5 :=
  (commitBlock_notify_after_durable wChain wBlock5 wTip (by rfl) (by rfl)).2 (by rfl)

/-- C2: when the archive reports already-exists for the block and the tip
is already at that block, `CommitBlock` returns nil, the state (tip and
notification log) is unchanged, and no subscriber is notified again. -/
theorem commitBlock_already_exists_idempotent (st : ChainState) (blk : Block) (t : TipInfo)
    (hp : st.pause = false)
    (hc : st.contextAt st.dao.tipHeight = .ok t)
    (hex : st.dao.putSpec blk = .alreadyExist)
    (htip : st.dao.tipHeight = blk.height) :
    st.CommitBlock blk = (st, none)
    ∧ (st.CommitBlock blk).1.dao.tipHeight = blk.height
    ∧ (st.CommitBlock blk).1.notified = st.notified := by
  have h1 : st.CommitBlock blk = (st, none) := by
    obtain ⟨dao, gh, gts, pz, subs, ntf, vld, eip⟩ := st
    simp only at hp hc
    subst hp
    have hex2 : dao.putSpec blk = .alreadyExist := hex
    simp [ChainState.CommitBlock, ChainState.commitBlock, hc, Dao.putBlock, hex2]
  exact ⟨h1, by rw [h1]; exact htip, by rw [h1]⟩

/-- Witness for C2: re-committing the block the archive already holds at
the tip returns nil, keeps the tip at height 5, and delivers no further
notification. -/
theorem commitBlock_already_exists_idempotent_witness :
    wChainDup.CommitBlock wBlock5 = (wChainDup, none)
    ∧ (wChainDup.CommitBlock wBlock5).1.dao.tipHeight = 5
    ∧ (wChainDup.CommitBlock wBlock5).1.notified = [] :=
  commitBlock_already_exists_idempotent wChainDup wBlock5 wTipDup
    (by rfl) (by rfl) (by rfl) (by rfl)

/-! ### Claim theorems: incremental indexer -/

/-- C3: every indexer commit either merges the delta and durably writes the
batch together with the checkpoint height, or — when either the merge or
the write fails — returns the error with the live cache discarded and
reloaded from the untouched store; no partially merged cache is ever the
result. -/
theorem idxCommit_merge_write_or_reload {Cache Delta Batch Store : Type}
    (merge : Cache → Delta → Nat → Except IdxErr Cache)
    (putHeightKey : Batch → Nat → Batch)
    (writeBatch : Store → Batch → Except IdxErr Store)
    (loadFromDB : Store → Cache)
    (cache : Cache) (store : Store) (batch : Batch) (delta : Delta) (height : Nat) :
    (∃ e, merge cache delta height = .error e
        ∧ idxCommit merge putHeightKey writeBatch loadFromDB cache store batch delta height
            = ((loadFromDB store, store), some e))
    ∨ (∃ cache2 e, merge cache delta height = .ok cache2
        ∧ writeBatch store (putHeightKey batch height) = .error e
        ∧ idxCommit merge putHeightKey writeBatch loadFromDB cache store batch delta height
            = ((loadFromDB store, store), some e))
    ∨ (∃ cache2 store2, merge cache delta height = .ok cache2
        ∧ writeBatch store (putHeightKey batch height) = .ok store2
        ∧ idxCommit merge putHeightKey writeBatch loadFromDB cache store batch delta height
            = ((cache2, store2), none)) := by
  cases hm : merge cache delta height with
  | error e => exact Or.inl ⟨e, rfl, by simp [idxCommit, hm]⟩
  | ok cache2 =>
    cases hw : writeBatch store (putHeightKey batch height) with
    | error e => exact Or.inr (Or.inl ⟨cache2, e, rfl, rfl, by simp [idxCommit, hm, hw]⟩)
    | ok store2 => exact Or.inr (Or.inr ⟨cache2, store2, rfl, rfl, by simp [idxCommit, hm, hw]⟩)

/-- C4: `PutBlock`'s expected height is max(cache height + 1, configured
start height); a block below it is a silent no-op leaving cache and store
untouched, a block above it returns the ordering error leaving cache and
store untouched. -/
theorem idxPutBlock_height_gate {Cache Delta Batch Store Handler : Type}
    (cfg : IdxConfig) (cacheHeight : Cache → Nat) (newHandler : Cache → Handler)
    (handleEvent : Handler → Nat → IdxLog → Except IdxErr Handler)
    (handlerResult : Handler → Batch × Delta)
    (merge : Cache → Delta → Nat → Except IdxErr Cache)
    (putHeightKey : Batch → Nat → Batch)
    (writeBatch : Store → Batch → Except IdxErr Store)
    (loadFromDB : Store → Cache)
    (cache : Cache) (store : Store) (blk : IdxBlock) :
    (if U64 (cacheHeight cache + 1) < cfg.contractDeployHeight then cfg.contractDeployHeight
        else U64 (cacheHeight cache + 1))
      = max (U64 (cacheHeight cache + 1)) cfg.contractDeployHeight
    ∧ (blk.height < max (U64 (cacheHeight cache + 1)) cfg.contractDeployHeight →
        idxPutBlock cfg cacheHeight newHandler handleEvent handlerResult merge putHeightKey
            writeBatch loadFromDB cache store blk = ((cache, store), none))
    ∧ (blk.height > max (U64 (cacheHeight cache + 1)) cfg.contractDeployHeight →
        idxPutBlock cfg cacheHeight newHandler handleEvent handlerResult merge putHeightKey
            writeBatch loadFromDB cache store blk
          = ((cache, store),
              some (.invalidHeight blk.height
                (max (U64 (cacheHeight cache + 1)) cfg.contractDeployHeight)))) := by
  have hmax : (if U64 (cacheHeight cache + 1) < cfg.contractDeployHeight
        then cfg.contractDeployHeight else U64 (cacheHeight cache + 1))
      = max (U64 (cacheHeight cache + 1)) cfg.contractDeployHeight := by
    rcases Nat.lt_or_ge (U64 (cacheHeight cache + 1)) cfg.contractDeployHeight with h | h
    · simp [h, Nat.max_eq_right (Nat.le_of_lt h)]
    · simp [Nat.not_lt.mpr h, Nat.max_eq_left h]
  refine ⟨hmax, ?_, ?_⟩
  · intro hlt
    simp only [idxPutBlock]
    rw [hmax]
    simp [hlt]
  · intro hgt
    have h1 : ¬ blk.height < max (U64 (cacheHeight cache + 1)) cfg.contractDeployHeight := by
      omega
    simp only [idxPutBlock]
    rw [hmax]
    simp [h1, hgt]

/-- Witness for C4: with cache height 1 and start height 0 the expected
height is 2; a block at height 1 is a no-op, a block at height 5 returns
the ordering error, both leaving cache and store untouched. -/
theorem idxPutBlock_height_gate_witness :
    idxPutBlock ⟨"io1", 0⟩ (fun c : Nat => c) (fun _ => ()) (fun h _ _ => .ok h)
        (fun _ => ((), ())) (fun c _ _ => .ok c) (fun b _ => b)
        (fun s _ => .ok s) (fun _ => (0 : Nat)) 1 () ⟨1, []⟩ = ((1, ()), none)
    ∧ idxPutBlock ⟨"io1", 0⟩ (fun c : Nat => c) (fun _ => ()) (fun h _ _ => .ok h)
        (fun _ => ((), ())) (fun c _ _ => .ok c) (fun b _ => b)
        (fun s _ => .ok s) (fun _ => (0 : Nat)) 1 () ⟨5, []⟩
      = ((1, ()), some (.invalidHeight 5 2)) :=
  ⟨(idxPutBlock_height_gate ⟨"io1", 0⟩ (fun c : Nat => c) (fun _ => ()) (fun h _ _ => .ok h)
      (fun _ => ((), ())) (fun c _ _ => .ok c) (fun b _ => b)
      (fun s _ => .ok s) (fun _ => (0 : Nat)) 1 () ⟨1, []⟩).2.1 (by decide),
    (idxPutBlock_height_gate ⟨"io1", 0⟩ (fun c : Nat => c) (fun _ => ()) (fun h _ _ => .ok h)
      (fun _ => ((), ())) (fun c _ _ => .ok c) (fun b _ => b)
      (fun s _ => .ok s) (fun _ => (0 : Nat)) 1 () ⟨5, []⟩).2.2 (by decide)⟩

/-- C9: every height-taking read accessor of the indexer returns its
default/empty value with a nil error for heights strictly below the
configured start (contract deploy) height, without consulting the cache. -/
theorem idxReads_default_below_start {Cache Bucket BucketType : Type}
    (cfg : IdxConfig)
    (cacheBuckets : Cache → Nat → Except IdxErr (List Bucket))
    (cacheBucket : Cache → Nat → Nat → Except IdxErr (Option Bucket × Bool))
    (cacheByIndices : Cache → List Nat → Nat → Except IdxErr (List Bucket))
    (cacheByCandidate : Cache → Nat → Nat → Except IdxErr (List Bucket))
    (cacheVotes : Cache → Nat → Nat → Except IdxErr Int)
    (cacheCount : Cache → Nat → Except IdxErr Nat)
    (cacheActiveTypes : Cache → Nat → Except IdxErr (List (Nat × BucketType)))
    (cache : Cache) (height bid candidate : Nat) (indices : List Nat)
    (h : height < cfg.contractDeployHeight) :
    idxBuckets cfg cacheBuckets cache height = .ok []
    ∧ idxBucket cfg cacheBucket cache bid height = .ok (none, false)
    ∧ idxBucketsByIndices cfg cacheByIndices cache indices height = .ok []
    ∧ idxBucketsByCandidate cfg cacheByCandidate cache candidate height = .ok []
    ∧ idxCandidateVotes cfg cacheVotes cache candidate height = .ok 0
    ∧ idxTotalBucketCount cfg cacheCount cache height = .ok 0
    ∧ idxBucketTypes cfg cacheActiveTypes cache height = .ok [] := by
  have hig : idxIsIgnored cfg height = true := by
    simp [idxIsIgnored, h]
  exact ⟨by simp [idxBuckets, hig], by simp [idxBucket, hig],
    by simp [idxBucketsByIndices, hig], by simp [idxBucketsByCandidate, hig],
    by simp [idxCandidateVotes, hig], by simp [idxTotalBucketCount, hig],
    by simp [idxBucketTypes, hig]⟩

/-- Witness for C9: with start height 100, `Buckets(50)` is the empty set
with nil error even though the cache itself would answer a non-empty
list, and `CandidateVotes` at height 50 is zero. -/
theorem idxReads_default_below_start_witness :
    idxBuckets ⟨"io1", 100⟩ (fun (_ : Unit) (_ : Nat) => .ok [(3 : Nat)]) () 50 = .ok []
    ∧ idxCandidateVotes ⟨"io1", 100⟩ (fun (_ : Unit) (_ _ : Nat) => .ok (9 : Int)) () 0 50
        = .ok 0 :=
  ⟨(idxReads_default_below_start ⟨"io1", 100⟩ (fun _ _ => .ok [(3 : Nat)])
      (fun _ _ _ => .ok (none, false)) (fun _ _ _ => .ok []) (fun _ _ _ => .ok [])
      (fun _ _ _ => .ok (9 : Int)) (fun _ _ => .ok 0)
      (fun _ _ => .ok ([] : List (Nat × Nat))) () 50 0 0 [] (by decide)).1,
    (idxReads_default_below_start ⟨"io1", 100⟩ (fun _ _ => .ok [(3 : Nat)])
      (fun _ _ _ => .ok (none, false)) (fun _ _ _ => .ok []) (fun _ _ _ => .ok [])
      (fun _ _ _ => .ok (9 : Int)) (fun _ _ => .ok 0)
      (fun _ _ => .ok ([] : List (Nat × Nat))) () 50 0 0 [] (by decide)).2.2.2.2.1⟩

end IotexCore
